import Mathlib

set_option maxHeartbeats 1000000

/- Verification of the MCP client core in src/utils/mcp.ts (class
   MCPManager): a shallow embedding of the JSON data it receives, the
   Zod schema translation, the request correlator, the session handshake
   and the manager registry, followed by theorems checking the
   specification claims against the embedding. -/

namespace Mcp

/-- JSON values as delivered by JSON.parse. Numbers are modelled as
integers (no claim depends on fractional payloads, and the source never
inspects numeric precision). Objects carry their fields in order with
distinct keys, as the parser produces them. -/
inductive Json where
  | null
  | bool (b : Bool)
  | num (n : Int)
  | str (s : String)
  | arr (elems : List Json)
  | obj (fields : List (String × Json))

mutual

/-- Structural size of a JSON value, used only to hand the fuel-indexed
functions below more fuel than their recursion depth. -/
def Json.size : Json → Nat
  | .null => 1
  | .bool _ => 1
  | .num _ => 1
  | .str _ => 1
  | .arr xs => 1 + Json.sizeList xs
  | .obj fs => 1 + Json.sizeFields fs

def Json.sizeList : List Json → Nat
  | [] => 0
  | x :: rest => Json.size x + Json.sizeList rest

def Json.sizeFields : List (String × Json) → Nat
  | [] => 0
  | kv :: rest => Json.size kv.2 + Json.sizeFields rest

end

/-- Size of an optional JSON value. -/
def optSize : Option Json → Nat
  | none => 0
  | some j => Json.size j

/-- First-match field lookup in an object field list (parsed JSON objects
have distinct keys, so the first match is the match). -/
def lookupField : List (String × Json) → String → Option Json
  | [], _ => none
  | (k, v) :: rest, key => if k = key then some v else lookupField rest key

/-- JavaScript truthiness of a JSON value (NaN is not representable
here). -/
def truthy : Json → Bool
  | .null => false
  | .bool b => b
  | .num n => n != 0
  | .str s => s != ""
  | .arr _ => true
  | .obj _ => true

/-- Truthiness of an optional value, `none` standing for `undefined`. -/
def truthyOpt : Option Json → Bool
  | none => false
  | some j => truthy j

/-- Property access `j.key`: the field of an object, `undefined`
otherwise. The receivers `null`/`undefined`, on which the access would
throw in JavaScript, are handled explicitly at each use site. -/
def jsGet : Json → String → Option Json
  | .obj fields, key => lookupField fields key
  | _, _ => none

def jsGetOpt : Option Json → String → Option Json
  | some j, key => jsGet j key
  | none, _ => none

def hasKey (fields : List (String × Json)) (key : String) : Bool :=
  (lookupField fields key).isSome

/-- Object.entries: the field list of an object, [] for the primitives
that can reach it in the translator (Object.entries of a number or a
boolean is empty; string and array receivers do not occur in the schemas
the claims range over). -/
def entriesOf : Json → List (String × Json)
  | .obj fields => fields
  | _ => []

/-- Substring test, as `s.includes(key)` on strings. -/
def strIncludes (s key : String) : Bool :=
  if key = "" then true else (s.splitOn key).length ≥ 2

/-- The check `schema.required?.includes(key)`: optional chaining
short-circuits undefined and null to undefined (falsy); an array compares
its elements with === against the string key; a string receiver does a
substring test. Other truthy receivers would throw in JavaScript and do
not occur in the schemas the claims range over. -/
def requiredIncludes : Option Json → String → Bool
  | none, _ => false
  | some .null, _ => false
  | some (.arr xs), key => xs.any (fun e => match e with | .str s => s == key | _ => false)
  | some (.str s), key => strIncludes s key
  | some _, _ => false

/-- The Zod validators the translator can produce. An `objectT` shape
entry is (key, sub-validator, isOptional); Zod objects are in strip mode
and ignore unknown keys. -/
inductive ZodType where
  | any
  | string
  | number
  | integerT (min : Option Int)
  | boolean
  | array (elem : ZodType)
  | objectT (shape : List (String × ZodType × Bool))

mutual

/-- convertSchemaToZod from the source, with a fuel argument bounding the
recursion depth (the canonical wrappers below pass more fuel than the
depth of the finite input, so the fuel-0 arm is never reached). The
argument is an Option because the schema itself may be undefined. -/
def convertSchemaToZodGo : Nat → Option Json → ZodType
  | 0, _ => .any
  | fuel + 1, schema =>
    if truthyOpt schema = false ∨ truthyOpt (jsGetOpt schema "type") = false then
      .objectT []
    else
      match jsGetOpt schema "type" with
      | some (.str "object") =>
        match jsGetOpt schema "properties" with
        | some props =>
          if truthy props then
            .objectT ((entriesOf props).map (fun kv =>
              (kv.1, convertPropertyToZodGo fuel kv.2,
               !(requiredIncludes (jsGetOpt schema "required") kv.1))))
          else .objectT []
        | none => .objectT []
      | _ => .any

/-- convertPropertyToZod from the source, same fuel discipline. A
non-numeric `minimum` (whose Zod comparison would coerce) does not occur
in the schemas the claims range over and is treated as absent; the
`.int()` constraint is vacuous here because modelled numbers are
integers. -/
def convertPropertyToZodGo : Nat → Json → ZodType
  | 0, _ => .any
  | fuel + 1, schema =>
    match jsGet schema "type" with
    | some (.str "string") => .string
    | some (.str "number") => .number
    | some (.str "integer") =>
      .integerT (match jsGet schema "minimum" with
        | some (.num n) => some n
        | _ => none)
    | some (.str "boolean") => .boolean
    | some (.str "array") =>
      (match jsGet schema "items" with
       | some items =>
         if truthy items then .array (convertPropertyToZodGo fuel items)
         else .array .any
       | none => .array .any)
    | some (.str "object") => convertSchemaToZodGo fuel (some schema)
    | _ => .any

end

/-- Canonical instantiation: the size of the input strictly bounds the
recursion depth of the source function on it. -/
def convertSchemaToZod (schema : Option Json) : ZodType :=
  convertSchemaToZodGo (optSize schema + 1) schema

def convertPropertyToZod (schema : Json) : ZodType :=
  convertPropertyToZodGo (Json.size schema + 1) schema

/-- Zod parse success as a Boolean: strip-mode objects accept unknown
keys, optional entries may be absent, arrays check every element. Fuel
as in the translator. -/
def zodValidateGo : Nat → ZodType → Json → Bool
  | 0, _, _ => true
  | fuel + 1, t, j =>
    match t, j with
    | .any, _ => true
    | .string, .str _ => true
    | .string, _ => false
    | .number, .num _ => true
    | .number, _ => false
    | .integerT min, .num n =>
      (match min with | some m => decide (m ≤ n) | none => true)
    | .integerT _, _ => false
    | .boolean, .bool _ => true
    | .boolean, _ => false
    | .array elem, .arr xs => xs.all (fun x => zodValidateGo fuel elem x)
    | .array _, _ => false
    | .objectT shape, .obj fields =>
      shape.all (fun e =>
        match lookupField fields e.1 with
        | some v => zodValidateGo fuel e.2.1 v
        | none => e.2.2)
    | .objectT _, _ => false

mutual

/-- Structural size of a validator, fuel for zodValidateGo. -/
def ZodType.size : ZodType → Nat
  | .any => 1
  | .string => 1
  | .number => 1
  | .integerT _ => 1
  | .boolean => 1
  | .array elem => 1 + ZodType.size elem
  | .objectT shape => 1 + ZodType.sizeShape shape

def ZodType.sizeShape : List (String × ZodType × Bool) → Nat
  | [] => 0
  | e :: rest => ZodType.size e.2.1 + ZodType.sizeShape rest

end

def zodValidate (t : ZodType) (j : Json) : Bool :=
  zodValidateGo (ZodType.size t + 1) t j

/-- String() coercion of an element inside Array.prototype.join: null and
undefined become the empty string, arrays join recursively with a comma,
objects become "[object Object]". -/
def joinElemGo : Nat → Json → String
  | 0, _ => ""
  | fuel + 1, j =>
    match j with
    | .null => ""
    | .bool b => cond b "true" "false"
    | .num n => toString n
    | .str s => s
    | .arr xs => String.intercalate "," (xs.map (joinElemGo fuel))
    | .obj _ => "[object Object]"

def joinElemToString (j : Json) : String := joinElemGo (Json.size j + 1) j

/-- Template-literal coercion, as in the catalog name `mcp_` + tool.name:
like the join coercion except that null prints "null" and undefined
prints "undefined". -/
def templateToString : Option Json → String
  | none => "undefined"
  | some .null => "null"
  | some j => joinElemToString j

def hexDigit (n : Nat) : Char :=
  if n < 10 then Char.ofNat (48 + n) else Char.ofNat (87 + n)

/-- JSON.stringify escaping for one character. -/
def escapeChar (c : Char) : String :=
  if c = '"' then "\\\""
  else if c = '\\' then "\\\\"
  else if c = '\n' then "\\n"
  else if c = '\r' then "\\r"
  else if c = '\t' then "\\t"
  else if c = '\x08' then "\\b"
  else if c = '\x0c' then "\\f"
  else if c.toNat < 32 then
    "\\u00" ++ String.mk [hexDigit (c.toNat / 16), hexDigit (c.toNat % 16)]
  else String.mk [c]

def escapeString (s : String) : String :=
  String.join (s.toList.map escapeChar)

/-- JSON.stringify on parsed JSON values (no undefined members can occur
in them). -/
def stringifyGo : Nat → Json → String
  | 0, _ => ""
  | fuel + 1, j =>
    match j with
    | .null => "null"
    | .bool b => cond b "true" "false"
    | .num n => toString n
    | .str s => "\"" ++ escapeString s ++ "\""
    | .arr xs => "[" ++ String.intercalate "," (xs.map (stringifyGo fuel)) ++ "]"
    | .obj fs =>
      "\x7b" ++ String.intercalate ","
        (fs.map (fun kv => "\"" ++ escapeString kv.1 ++ "\":" ++ stringifyGo fuel kv.2)) ++ "\x7d"

def stringify (j : Json) : String := stringifyGo (Json.size j + 1) j

/-- One MCP server session. The child process and readline handles are
not representable and carry no protocol state; `capabilities` is
initialised empty and never written by the source. `pendingRequests`
maps numeric request ids to an abstract caller token standing for the
stored resolve/reject continuation pair; the source only ever inserts
numeric keys (`server.nextId++`), so the key type is Nat. -/
structure ServerState where
  tools : List Json
  capabilities : List (String × Json)
  nextId : Nat
  pendingRequests : List (Nat × Nat)
  command : String

/-- How a settled pending request reports back to its caller:
resolve(message.result) or reject(new Error(message.error.message)). -/
inductive RpcSettle where
  | resolved (result : Option Json)
  | rejected (errMessage : Option Json)

def lookupNat : List (Nat × Nat) → Nat → Option Nat
  | [], _ => none
  | (k, v) :: rest, q => if k = q then some v else lookupNat rest q

/-- Map.delete of the (unique) entry with the given key. -/
def deleteNat : List (Nat × Nat) → Nat → List (Nat × Nat)
  | [], _ => []
  | (k, v) :: rest, q => if k = q then rest else (k, v) :: deleteNat rest q

/-- Map.set: replace in place, or append a new entry. -/
def pendingSet : List (Nat × Nat) → Nat → Nat → List (Nat × Nat)
  | [], k, c => [(k, c)]
  | (k', c') :: rest, k, c =>
    if k' = k then (k, c) :: rest else (k', c') :: pendingSet rest k c

/-- Map.get keyed by the raw `message.id` value: SameValueZero can only
match the stored numeric keys when the id is a non-negative number. -/
def pendingGet (l : List (Nat × Nat)) (mid : Json) : Option Nat :=
  match mid with
  | .num (Int.ofNat k) => lookupNat l k
  | _ => none

def pendingDelete (l : List (Nat × Nat)) (mid : Json) : List (Nat × Nat) :=
  match mid with
  | .num (Int.ofNat k) => deleteNat l k
  | _ => l

def msgIdVal (fields : List (String × Json)) : Json :=
  (lookupField fields "id").getD .null

/-- handleMessage from the source. A message with an `id` key is a
response: look up the pending request, reject on a truthy `error`,
resolve with `result` otherwise, and delete the entry; an unknown id is
only logged. A message without `id` but with a method is a notification
and is only logged. The `in` test on a parsed primitive throws a
TypeError that the surrounding try/catch of the line handler swallows,
so those arms also leave the state unchanged. -/
def handleMessage (sv : ServerState) (m : Json) : ServerState × Option (Nat × RpcSettle) :=
  match m with
  | .obj fields =>
    if hasKey fields "id" then
      match pendingGet sv.pendingRequests (msgIdVal fields) with
      | some caller =>
        ({ sv with pendingRequests := pendingDelete sv.pendingRequests (msgIdVal fields) },
         some (caller,
           if truthyOpt (lookupField fields "error") then
             RpcSettle.rejected (jsGetOpt (lookupField fields "error") "message")
           else
             RpcSettle.resolved (lookupField fields "result")))
      | none => (sv, none)
    else (sv, none)
  | .arr _ => (sv, none)
  | _ => (sv, none)

/-- The settlement a response message carries for whoever it matches. -/
def settleOf (m : Json) : RpcSettle :=
  match m with
  | .obj fields =>
    if truthyOpt (lookupField fields "error") then
      RpcSettle.rejected (jsGetOpt (lookupField fields "error") "message")
    else
      RpcSettle.resolved (lookupField fields "result")
  | _ => .resolved none

/-- The correlation key a message presents: its `id` value, when it has
one. -/
def msgKey : Json → Option Json
  | .obj fields => if hasKey fields "id" then some (msgIdVal fields) else none
  | _ => none

/-- Does this message answer the request with numeric id `i`. -/
def matchesId (i : Nat) (m : Json) : Bool :=
  match msgKey m with
  | some (.num (Int.ofNat k)) => k == i
  | _ => false

/-- sendRequest from the source: assigns id = nextId++, registers the
pending entry (Map.set semantics) and writes the JSON-RPC request line.
Returns the new state, the assigned id and the written request; an
undefined `params` member is dropped by JSON.stringify, hence by the
modelled envelope. -/
def sendRequest (sv : ServerState) (method : String) (params : Option Json) (caller : Nat) :
    ServerState × Nat × Json :=
  let id := sv.nextId
  let request := Json.obj
    ([("jsonrpc", Json.str "2.0"), ("id", Json.num (Int.ofNat id)), ("method", Json.str method)] ++
      (match params with | some p => [("params", p)] | none => []))
  ({ sv with nextId := id + 1, pendingRequests := pendingSet sv.pendingRequests id caller },
   id, request)

/-- The readline line handler: it receives the JSON.parse output, none
when the parse threw (the catch only logs the failure). -/
def onLine (sv : ServerState) (parsed : Option Json) : ServerState × Option (Nat × RpcSettle) :=
  match parsed with
  | none => (sv, none)
  | some m => handleMessage sv m

/-- Deliver a list of inbound messages in order, collecting every
settlement they produce. -/
def processMessages : ServerState → List Json → ServerState × List (Nat × RpcSettle)
  | sv, [] => (sv, [])
  | sv, m :: rest =>
    let step := handleMessage sv m
    let r := processMessages step.1 rest
    (r.1, match step.2 with | some e => e :: r.2 | none => r.2)

/-- Deliver a list of inbound lines (as parse results) in order. -/
def processParsedLines : ServerState → List (Option Json) → ServerState × List (Nat × RpcSettle)
  | sv, [] => (sv, [])
  | sv, line :: rest =>
    let step := onLine sv line
    let r := processParsedLines step.1 rest
    (r.1, match step.2 with | some e => e :: r.2 | none => r.2)

/-- A burst of concurrent sendRequest calls (caller token, method,
params), all issued before any response arrives. -/
def multiSend : ServerState → List (Nat × String × Option Json) → ServerState × List (Nat × Nat)
  | sv, [] => (sv, [])
  | sv, (caller, method, params) :: rest =>
    let s := sendRequest sv method params caller
    let r := multiSend s.1 rest
    (r.1, (caller, s.2.1) :: r.2)

/-- The manager registry: active sessions keyed by launch command, in
insertion order (JS Map semantics). -/
structure ManagerState where
  servers : List (String × ServerState)

def strMapGet : List (String × ServerState) → String → Option ServerState
  | [], _ => none
  | (k, v) :: rest, key => if k = key then some v else strMapGet rest key

def strMapSet : List (String × ServerState) → String → ServerState → List (String × ServerState)
  | [], key, v => [(key, v)]
  | (k, w) :: rest, key, v =>
    if k = key then (key, v) :: rest else (k, w) :: strMapSet rest key v

def strMapDelete : List (String × ServerState) → String → List (String × ServerState)
  | [], _ => []
  | (k, w) :: rest, key => if k = key then rest else (k, w) :: strMapDelete rest key

def containsKey (l : List (String × ServerState)) (key : String) : Bool :=
  (strMapGet l key).isSome

def getActiveServers (mgr : ManagerState) : List String :=
  mgr.servers.map Prod.fst

def freshServer (command : String) : ServerState :=
  { tools := [], capabilities := [], nextId := 1, pendingRequests := [], command := command }

/-- How one awaited request turns out, supplied as an oracle for the
environment: the matching response line arrives carrying `result` or
`error`, or the process exits first — firing the exit handler, which
deletes the registry entry, while the awaited promise never settles. -/
inductive RpcOutcome where
  | ok (result : Json)
  | err (error : Json)
  | exitBeforeReply

/-- The inbound response line an outcome stands for, for the request with
the given id. -/
def responseFor (id : Nat) : RpcOutcome → Option Json
  | .ok r => some (Json.obj [("jsonrpc", Json.str "2.0"), ("id", Json.num (Int.ofNat id)), ("result", r)])
  | .err e => some (Json.obj [("jsonrpc", Json.str "2.0"), ("id", Json.num (Int.ofNat id)), ("error", e)])
  | .exitBeforeReply => none

/-- How a startServer call can end for its caller. `hung` is the promise
that never settles (an awaited request orphaned by process exit). -/
inductive StartResult where
  | alreadyRunning
  | success
  | failed (errMessage : Option Json)
  | hung

def initParams : Json :=
  Json.obj [("protocolVersion", Json.str "2024-11-05"),
            ("capabilities", Json.obj []),
            ("clientInfo", Json.obj [("name", Json.str "aicode"), ("version", Json.str "1.0.0")])]

/-- The tool list stored by listTools: `result.tools || []`. A truthy
non-array value would only blow up later, in the for-of of getAllTools,
and does not occur in the results the claims range over; it is stored
as []. -/
def toolsFrom (rv : Json) : List Json :=
  match jsGet rv "tools" with
  | some t => if truthy t then (match t with | .arr xs => xs | _ => []) else []
  | none => []

/-- listTools from the source: awaits tools/list and stores
`result.tools || []`; every rejection is caught and only logged, leaving
the tool list unchanged; a null or undefined result value makes
`result.tools` throw, which the same catch swallows. Returns none when
the awaited request never settles. -/
def listTools (sv : ServerState) (outcome : RpcOutcome) : Option ServerState :=
  let s := sendRequest sv "tools/list" none 0
  match responseFor s.2.1 outcome with
  | none => none
  | some resp =>
    match handleMessage s.1 resp with
    | (sv₁, some (_, .resolved rv)) =>
      match rv with
      | none => some sv₁
      | some .null => some sv₁
      | some rv' => some { sv₁ with tools := toolsFrom rv' }
    | (sv₁, some (_, .rejected _)) => some sv₁
    | (_, none) => none

/-- startServer(command) from the source, driven by outcome oracles for
its two awaited requests. The source inserts the session into the
registry (servers.set, line 86) before the initialize handshake; the
rejection path of initialize does not remove it, while a process exit
removes it through the exit handler but leaves the await pending, so the
call hangs. -/
def startServer (mgr : ManagerState) (command : String)
    (initOutcome toolsOutcome : RpcOutcome) : ManagerState × StartResult :=
  if containsKey mgr.servers command then (mgr, .alreadyRunning)
  else
    let sv₀ := freshServer command
    let reg₀ := strMapSet mgr.servers command sv₀
    let s := sendRequest sv₀ "initialize" (some initParams) 0
    match responseFor s.2.1 initOutcome with
    | none => (⟨strMapDelete reg₀ command⟩, .hung)
    | some resp =>
      match handleMessage s.1 resp with
      | (sv₁, some (_, .rejected msg)) => (⟨strMapSet reg₀ command sv₁⟩, .failed msg)
      | (sv₁, some (_, .resolved _)) =>
        (match listTools sv₁ toolsOutcome with
         | none => (⟨strMapDelete reg₀ command⟩, .hung)
         | some sv₂ => (⟨strMapSet reg₀ command sv₂⟩, .success))
      | (sv₁, none) => (⟨strMapSet reg₀ command sv₁⟩, .hung)

/-- One entry of the aggregated tool catalog. The handler closure is
represented by the data it captures: the owning session command and the
raw tool.name it forwards; its behaviour is given by invokeTool. -/
structure ConvertedTool where
  name : String
  description : Option Json
  parameters : ZodType
  handlerServer : String
  handlerToolName : Option Json

def mkConvertedTool (command : String) (tool : Json) : ConvertedTool :=
  { name := "mcp_" ++ templateToString (jsGet tool "name"),
    description := jsGet tool "description",
    parameters := convertSchemaToZod (jsGet tool "inputSchema"),
    handlerServer := command,
    handlerToolName := jsGet tool "name" }

/-- getAllTools from the source: walk the registered sessions in order
and convert every tool of each. -/
def getAllTools (mgr : ManagerState) : List ConvertedTool :=
  mgr.servers.flatMap (fun p => p.2.tools.map (mkConvertedTool p.1))

/-- Is this JSON value null — the only value a parsed content array can
hold on which the filter callback `c.type` throws (undefined cannot
occur in parsed JSON, and property access on the other primitives just
yields undefined). -/
def Json.isNull : Json → Bool
  | .null => true
  | _ => false

/-- The filter callback `c.type === "text"`, evaluated on a non-null
block: an object is tested on its `type` member, and the remaining
non-null primitives have an undefined `type`, so they are filtered out
without throwing. A null receiver throws instead; extractToolResult
surfaces that case before any filtering. -/
def isTextBlock (c : Json) : Bool :=
  match jsGet c "type" with
  | some (.str s) => s == "text"
  | _ => false

/-- The `text` member of a content block as it appears in the joined
output (join turns an undefined member into the empty string and
coerces other values with String()). The map callback only ever runs on
filter survivors, which carry `type: "text"` and are therefore objects,
so this access cannot throw. -/
def textOf (c : Json) : String :=
  match jsGet c "text" with
  | some j => joinElemToString j
  | none => ""

/-- How one handler invocation ends for its caller. `thrownTypeError` is
the re-thrown TypeError raised by a property access on a null or absent
value: `result.content` on a null/absent result, or `c.type` on a null
content-array element. -/
inductive HandlerResult where
  | ok (text : String)
  | thrown (errMessage : Option Json)
  | thrownTypeError
  | hung

/-- Result extraction in the tools/call handler: a content member that is
an array (arrays are always truthy) is filtered on `c.type === "text"` —
if the array holds a null element, that access throws a TypeError which
the catch logs and re-throws (the throw happens at the first null, but
nothing observable was produced before it, so testing the whole array is
equivalent); otherwise the text of the "text"-typed blocks is joined
with newlines. Any other non-null result is JSON-encoded; a null or
absent result makes `result.content` itself throw into the same
catch. -/
def extractToolResult : Option Json → HandlerResult
  | none => .thrownTypeError
  | some .null => .thrownTypeError
  | some r =>
    match jsGet r "content" with
    | some (.arr blocks) =>
      if blocks.any Json.isNull then .thrownTypeError
      else .ok (String.intercalate "\n" ((blocks.filter isTextBlock).map textOf))
    | _ => .ok (stringify r)

/-- One run of a converted tool handler: forwards a single tools/call
request carrying the captured raw tool name and the given params, then
settles according to the matching response (or hangs when none arrives).
Returns the updated session, the requests written during the run, and
the outcome; a rejection is caught, logged, and re-thrown unchanged. -/
def invokeTool (sv : ServerState) (toolName : Option Json) (params : Json)
    (callOutcome : RpcOutcome) : ServerState × List Json × HandlerResult :=
  let callParams := Json.obj
    ((match toolName with | some n => [("name", n)] | none => []) ++ [("arguments", params)])
  let s := sendRequest sv "tools/call" (some callParams) 0
  match responseFor s.2.1 callOutcome with
  | none => (s.1, [s.2.2], .hung)
  | some resp =>
    match handleMessage s.1 resp with
    | (sv₁, some (_, .resolved rv)) => (sv₁, [s.2.2], extractToolResult rv)
    | (sv₁, some (_, .rejected msg)) => (sv₁, [s.2.2], .thrown msg)
    | (sv₁, none) => (sv₁, [s.2.2], .hung)

/- ------------------------------------------------------------------
   Helper lemmas about the pending-request map
   ------------------------------------------------------------------ -/

theorem lookupNat_eq_of_mem {P : List (Nat × Nat)} {i c : Nat}
    (hmem : (i, c) ∈ P) (hnd : (P.map Prod.fst).Nodup) :
    lookupNat P i = some c := by
  induction P with
  | nil => cases hmem
  | cons head rest ih =>
    obtain ⟨k, v⟩ := head
    simp only [List.map_cons, List.nodup_cons] at hnd
    rcases List.mem_cons.mp hmem with heq | hmem'
    · cases heq
      simp [lookupNat]
    · have hki : k ≠ i := by
        rintro rfl
        exact hnd.1 (List.mem_map_of_mem Prod.fst hmem')
      simp [lookupNat, hki, ih hmem' hnd.2]

theorem lookupNat_eq_none_of_notMem {P : List (Nat × Nat)} {i : Nat}
    (h : i ∉ P.map Prod.fst) : lookupNat P i = none := by
  induction P with
  | nil => rfl
  | cons head rest ih =>
    obtain ⟨k, v⟩ := head
    simp only [List.map_cons, List.mem_cons] at h
    push_neg at h
    simp [lookupNat, Ne.symm h.1, ih h.2]

theorem mem_of_lookupNat_eq_some {P : List (Nat × Nat)} {i c : Nat}
    (h : lookupNat P i = some c) : (i, c) ∈ P := by
  induction P with
  | nil => cases h
  | cons head rest ih =>
    obtain ⟨k, v⟩ := head
    by_cases hk : k = i
    · subst hk
      simp [lookupNat] at h
      subst h
      exact List.mem_cons_self _ _
    · simp [lookupNat, hk] at h
      exact List.mem_cons_of_mem _ (ih h)

theorem deleteNat_sublist (P : List (Nat × Nat)) (i : Nat) :
    (deleteNat P i).Sublist P := by
  induction P with
  | nil => simp [deleteNat]
  | cons head rest ih =>
    obtain ⟨k, v⟩ := head
    by_cases hk : k = i
    · simp [deleteNat, hk]
    · simpa [deleteNat, hk] using ih.cons₂ (k, v)

theorem mem_deleteNat_of_ne {P : List (Nat × Nat)} {i j c : Nat}
    (hmem : (j, c) ∈ P) (hne : j ≠ i) : (j, c) ∈ deleteNat P i := by
  induction P with
  | nil => cases hmem
  | cons head rest ih =>
    obtain ⟨k, v⟩ := head
    rcases List.mem_cons.mp hmem with heq | hmem'
    · cases heq
      simp [deleteNat, hne]
    · by_cases hk : k = i
      · simpa [deleteNat, hk] using hmem'
      · simp only [deleteNat, if_neg hk]
        exact List.mem_cons_of_mem _ (ih hmem')

theorem notMem_fst_deleteNat {P : List (Nat × Nat)} {i : Nat}
    (hnd : (P.map Prod.fst).Nodup) : i ∉ (deleteNat P i).map Prod.fst := by
  induction P with
  | nil => simp [deleteNat]
  | cons head rest ih =>
    obtain ⟨k, v⟩ := head
    simp only [List.map_cons, List.nodup_cons] at hnd
    by_cases hk : k = i
    · subst hk
      simpa [deleteNat] using hnd.1
    · simp only [deleteNat, if_neg hk, List.map_cons, List.mem_cons]
      push_neg
      exact ⟨fun h => hk h.symm, ih hnd.2⟩

theorem snd_notMem_deleteNat {P : List (Nat × Nat)} {i c : Nat}
    (hmem : (i, c) ∈ P) (hfst : (P.map Prod.fst).Nodup)
    (hsnd : (P.map Prod.snd).Nodup) : c ∉ (deleteNat P i).map Prod.snd := by
  induction P with
  | nil => cases hmem
  | cons head rest ih =>
    obtain ⟨k, v⟩ := head
    simp only [List.map_cons, List.nodup_cons] at hfst hsnd
    by_cases hk : k = i
    · subst hk
      rcases List.mem_cons.mp hmem with heq | hmem'
      · cases heq
        simpa [deleteNat] using hsnd.1
      · exact absurd (List.mem_map_of_mem Prod.fst hmem') hfst.1
    · have hmem' : (i, c) ∈ rest := by
        rcases List.mem_cons.mp hmem with heq | hmem'
        · cases heq; exact absurd rfl hk
        · exact hmem'
      simp only [deleteNat, if_neg hk, List.map_cons, List.mem_cons]
      push_neg
      refine ⟨?_, ih hmem' hfst.2 hsnd.2⟩
      rintro rfl
      exact hsnd.1 (List.mem_map_of_mem Prod.snd hmem')

theorem snd_injective_of_nodup {P : List (Nat × Nat)} {a b x : Nat}
    (ha : (a, x) ∈ P) (hb : (b, x) ∈ P)
    (hsnd : (P.map Prod.snd).Nodup) : a = b := by
  induction P with
  | nil => cases ha
  | cons head rest ih =>
    obtain ⟨k, v⟩ := head
    simp only [List.map_cons, List.nodup_cons] at hsnd
    rcases List.mem_cons.mp ha with haeq | ha'
    · cases haeq
      rcases List.mem_cons.mp hb with hbeq | hb'
      · cases hbeq; rfl
      · exact absurd (List.mem_map_of_mem Prod.snd hb') hsnd.1
    · rcases List.mem_cons.mp hb with hbeq | hb'
      · cases hbeq
        exact absurd (List.mem_map_of_mem Prod.snd ha') hsnd.1
      · exact ih ha' hb' hsnd.2

theorem lookupNat_pendingSet (l : List (Nat × Nat)) (k c : Nat) :
    lookupNat (pendingSet l k c) k = some c := by
  induction l with
  | nil => simp [pendingSet, lookupNat]
  | cons head rest ih =>
    obtain ⟨k', c'⟩ := head
    by_cases hk : k' = k
    · simp [pendingSet, hk, lookupNat]
    · simp [pendingSet, hk, lookupNat, ih]

theorem pendingSet_fresh {l : List (Nat × Nat)} {k : Nat} (c : Nat)
    (h : k ∉ l.map Prod.fst) : pendingSet l k c = l ++ [(k, c)] := by
  induction l with
  | nil => rfl
  | cons head rest ih =>
    obtain ⟨k', c'⟩ := head
    simp only [List.map_cons, List.mem_cons] at h
    push_neg at h
    simp [pendingSet, Ne.symm h.1, ih h.2]

/- ------------------------------------------------------------------
   Helper lemmas about handleMessage and message processing
   ------------------------------------------------------------------ -/

theorem pendingDelete_sublist (l : List (Nat × Nat)) (v : Json) :
    (pendingDelete l v).Sublist l := by
  rcases v with _ | b | n | s | xs | fs
  · exact List.Sublist.refl l
  · exact List.Sublist.refl l
  · rcases n with k | k
    · exact deleteNat_sublist l k
    · exact List.Sublist.refl l
  · exact List.Sublist.refl l
  · exact List.Sublist.refl l
  · exact List.Sublist.refl l

theorem pendingGet_mem_snd {l : List (Nat × Nat)} {v : Json} {c : Nat}
    (h : pendingGet l v = some c) : c ∈ l.map Prod.snd := by
  rcases v with _ | b | n | s | xs | fs <;> simp [pendingGet] at h
  rcases n with k | k
  · simp at h
    exact List.mem_map_of_mem Prod.snd (mem_of_lookupNat_eq_some h)
  · simp at h

theorem handleMessage_of_msgKey_none {sv : ServerState} {m : Json}
    (h : msgKey m = none) : handleMessage sv m = (sv, none) := by
  rcases m with _ | b | n | s | xs | fs <;> try rfl
  simp only [msgKey, ite_eq_right_iff] at h
  by_cases hk : hasKey fs "id"
  · exact absurd (h hk) (by simp)
  · simp [handleMessage, hk]

theorem handleMessage_unmatched {sv : ServerState} {m : Json} {v : Json}
    (h : msgKey m = some v) (hg : pendingGet sv.pendingRequests v = none) :
    handleMessage sv m = (sv, none) := by
  rcases m with _ | b | n | s | xs | fs <;> simp [msgKey] at h
  obtain ⟨hk, hv⟩ := h
  subst hv
  simp [handleMessage, hk, hg]

theorem handleMessage_matched {sv : ServerState} {m : Json} {v : Json} {c : Nat}
    (h : msgKey m = some v) (hg : pendingGet sv.pendingRequests v = some c) :
    handleMessage sv m =
      ({ sv with pendingRequests := pendingDelete sv.pendingRequests v },
       some (c, settleOf m)) := by
  rcases m with _ | b | n | s | xs | fs <;> simp [msgKey] at h
  obtain ⟨hk, hv⟩ := h
  subst hv
  simp [handleMessage, hk, hg, settleOf]

theorem handleMessage_pending_sublist (sv : ServerState) (m : Json) :
    (handleMessage sv m).1.pendingRequests.Sublist sv.pendingRequests := by
  rcases hk : msgKey m with _ | v
  · rw [handleMessage_of_msgKey_none hk]
  · rcases hg : pendingGet sv.pendingRequests v with _ | c
    · rw [handleMessage_unmatched hk hg]
    · rw [handleMessage_matched hk hg]
      exact pendingDelete_sublist _ _

theorem handleMessage_emit_mem {sv : ServerState} {m : Json} {c : Nat}
    {x : RpcSettle} (h : (handleMessage sv m).2 = some (c, x)) :
    c ∈ sv.pendingRequests.map Prod.snd := by
  rcases hk : msgKey m with _ | v
  · rw [handleMessage_of_msgKey_none hk] at h
    cases h
  · rcases hg : pendingGet sv.pendingRequests v with _ | c'
    · rw [handleMessage_unmatched hk hg] at h
      cases h
    · rw [handleMessage_matched hk hg] at h
      simp at h
      obtain ⟨rfl, -⟩ := h
      exact pendingGet_mem_snd hg

theorem processMessages_pending_sublist (msgs : List Json) (sv : ServerState) :
    (processMessages sv msgs).1.pendingRequests.Sublist sv.pendingRequests := by
  induction msgs generalizing sv with
  | nil => exact List.Sublist.refl _
  | cons m rest ih =>
    simp only [processMessages]
    exact (ih (handleMessage sv m).1).trans (handleMessage_pending_sublist sv m)

theorem processMessages_countP_zero (msgs : List Json) (sv : ServerState) (c : Nat)
    (h : c ∉ sv.pendingRequests.map Prod.snd) :
    (processMessages sv msgs).2.countP (fun s => s.1 == c) = 0 := by
  induction msgs generalizing sv with
  | nil => rfl
  | cons m rest ih =>
    simp only [processMessages]
    have hsub := List.Sublist.map Prod.snd (handleMessage_pending_sublist sv m)
    have hstep : c ∉ (handleMessage sv m).1.pendingRequests.map Prod.snd :=
      fun hc => h (hsub.subset hc)
    rcases he : (handleMessage sv m).2 with _ | e
    · simpa using ih (handleMessage sv m).1 hstep
    · obtain ⟨c', x⟩ := e
      have hc' : c' ≠ c := by
        rintro rfl
        exact h (handleMessage_emit_mem he)
      simp only [List.countP_cons]
      simp [ih (handleMessage sv m).1 hstep, hc']

theorem processMessages_lookup_none (msgs : List Json) (sv : ServerState) (i : Nat)
    (h : i ∉ sv.pendingRequests.map Prod.fst) :
    lookupNat (processMessages sv msgs).1.pendingRequests i = none := by
  apply lookupNat_eq_none_of_notMem
  intro hc
  exact h ((List.Sublist.map Prod.fst (processMessages_pending_sublist msgs sv)).subset hc)

theorem matchesId_iff {i : Nat} {m : Json} :
    matchesId i m = true ↔ msgKey m = some (Json.num (Int.ofNat i)) := by
  unfold matchesId
  rcases h : msgKey m with _ | v
  · simp
  · rcases v with _ | b | n | s | xs | fs
    · simp
    · simp
    · rcases n with k | k
      · simp [Nat.beq_eq_true_eq]
      · simp
    · simp
    · simp
    · simp

theorem processMessages_correlation (msgs : List Json) (sv : ServerState)
    (i c : Nat) (m : Json)
    (hfst : (sv.pendingRequests.map Prod.fst).Nodup)
    (hsnd : (sv.pendingRequests.map Prod.snd).Nodup)
    (hmem : (i, c) ∈ sv.pendingRequests)
    (hcount : msgs.countP (matchesId i) = 1)
    (hm : m ∈ msgs) (hmatch : matchesId i m = true) :
    (c, settleOf m) ∈ (processMessages sv msgs).2
    ∧ (processMessages sv msgs).2.countP (fun s => s.1 == c) = 1
    ∧ lookupNat (processMessages sv msgs).1.pendingRequests i = none := by
  induction msgs generalizing sv with
  | nil => cases hm
  | cons m₀ rest ih =>
    by_cases h₀ : matchesId i m₀ = true
    · -- the head is the (unique) response to request i
      have hrest : rest.countP (matchesId i) = 0 := by
        simp [List.countP_cons, h₀] at hcount
        exact List.countP_eq_zero.mpr (by simpa using hcount)
      have hmm : m = m₀ := by
        rcases List.mem_cons.mp hm with rfl | hm'
        · rfl
        · exact absurd hmatch (by simpa using (List.countP_eq_zero.mp hrest) m hm')
      subst hmm
      have hkey : msgKey m = some (Json.num (Int.ofNat i)) := matchesId_iff.mp h₀
      have hget : pendingGet sv.pendingRequests (Json.num (Int.ofNat i)) = some c := by
        simpa [pendingGet] using lookupNat_eq_of_mem hmem hfst
      have hstep := handleMessage_matched hkey hget
      simp only [processMessages, hstep, pendingDelete]
      set sv₁ : ServerState :=
        { sv with pendingRequests := deleteNat sv.pendingRequests i } with hsv₁
      refine ⟨List.mem_cons_self _ _, ?_, ?_⟩
      · have hzero : (processMessages sv₁ rest).2.countP (fun s => s.1 == c) = 0 :=
          processMessages_countP_zero rest sv₁ c (snd_notMem_deleteNat hmem hfst hsnd)
        simp [List.countP_cons, hzero]
      · exact processMessages_lookup_none rest sv₁ i (notMem_fst_deleteNat hfst)
    · -- the head answers some other request (or none)
      have hrest : rest.countP (matchesId i) = 1 := by
        simpa [List.countP_cons, h₀] using hcount
      have hm' : m ∈ rest := by
        rcases List.mem_cons.mp hm with rfl | hm'
        · exact absurd hmatch h₀
        · exact hm'
      rcases hk : msgKey m₀ with _ | v
      · rw [show processMessages sv (m₀ :: rest) = processMessages sv rest by
          simp only [processMessages, handleMessage_of_msgKey_none hk]]
        exact ih sv hfst hsnd hmem hrest hm'
      · rcases hg : pendingGet sv.pendingRequests v with _ | c'
        · rw [show processMessages sv (m₀ :: rest) = processMessages sv rest by
            simp only [processMessages, handleMessage_unmatched hk hg]]
          exact ih sv hfst hsnd hmem hrest hm'
        · -- the head resolves a different pending entry
          rcases v with _ | b | n | s | xs | fs <;> simp [pendingGet] at hg
          rcases n with k | k
          swap
          · simp [pendingGet] at hg
          simp only [pendingGet] at hg
          have hki : k ≠ i := by
            rintro rfl
            exact h₀ (matchesId_iff.mpr hk)
          have hstep := handleMessage_matched hk hg
          simp only [processMessages, hstep, pendingDelete]
          set sv₁ : ServerState :=
            { sv with pendingRequests := deleteNat sv.pendingRequests k } with hsv₁
          have hfst₁ : (sv₁.pendingRequests.map Prod.fst).Nodup :=
            hfst.sublist (List.Sublist.map Prod.fst (deleteNat_sublist _ _))
          have hsnd₁ : (sv₁.pendingRequests.map Prod.snd).Nodup :=
            hsnd.sublist (List.Sublist.map Prod.snd (deleteNat_sublist _ _))
          have hmem₁ : (i, c) ∈ sv₁.pendingRequests :=
            mem_deleteNat_of_ne hmem (fun h => hki h.symm)
          obtain ⟨ih₁, ih₂, ih₃⟩ := ih sv₁ hfst₁ hsnd₁ hmem₁ hrest hm'
          have hcc : c' ≠ c := by
            rintro rfl
            exact hki (snd_injective_of_nodup (mem_of_lookupNat_eq_some hg) hmem hsnd)
          refine ⟨List.mem_cons_of_mem _ ih₁, ?_, ih₃⟩
          simp [List.countP_cons, hcc, ih₂]

/- ------------------------------------------------------------------
   Helper lemmas about multiSend and the registry map
   ------------------------------------------------------------------ -/

theorem multiSend_spec (calls : List (Nat × String × Option Json)) (sv : ServerState)
    (h : ∀ k ∈ sv.pendingRequests.map Prod.fst, k < sv.nextId) :
    (multiSend sv calls).1.pendingRequests
      = sv.pendingRequests
        ++ (List.range' sv.nextId calls.length).zip (calls.map (fun q => q.1))
    ∧ (multiSend sv calls).2
      = (calls.map (fun q => q.1)).zip (List.range' sv.nextId calls.length)
    ∧ (multiSend sv calls).1.nextId = sv.nextId + calls.length := by
  induction calls generalizing sv with
  | nil => simp [multiSend, List.range']
  | cons call rest ih =>
    obtain ⟨caller, method, params⟩ := call
    have hfresh : sv.nextId ∉ sv.pendingRequests.map Prod.fst :=
      fun hc => absurd (h _ hc) (lt_irrefl _)
    have hset : pendingSet sv.pendingRequests sv.nextId caller
        = sv.pendingRequests ++ [(sv.nextId, caller)] := pendingSet_fresh caller hfresh
    have h' : ∀ k ∈ ((sendRequest sv method params caller).1.pendingRequests.map Prod.fst),
        k < (sendRequest sv method params caller).1.nextId := by
      intro k hk
      simp only [sendRequest, hset, List.map_append, List.mem_append] at hk
      rcases hk with hk | hk
      · exact lt_trans (h k hk) (by simp [sendRequest])
      · simp at hk
        simp [sendRequest, hk]
    obtain ⟨ih₁, ih₂, ih₃⟩ := ih (sendRequest sv method params caller).1 h'
    simp only [sendRequest, hset] at ih₁ ih₂ ih₃
    refine ⟨?_, ?_, ?_⟩
    · simp only [multiSend, sendRequest, hset, ih₁, List.length_cons, List.range',
        List.map_cons, List.zip_cons_cons, List.append_assoc, List.cons_append,
        List.nil_append]
    · simp only [multiSend, sendRequest, hset, ih₂, List.length_cons, List.range',
        List.map_cons, List.zip_cons_cons]
    · simp only [multiSend, sendRequest, hset, ih₃, List.length_cons]
      omega

theorem mem_zip_swap {α β : Type} : ∀ {l₁ : List α} {l₂ : List β} {a : α} {b : β},
    (a, b) ∈ l₁.zip l₂ → (b, a) ∈ l₂.zip l₁ := by
  intro l₁
  induction l₁ with
  | nil => intro l₂ a b h; cases h
  | cons x rest ih =>
    intro l₂ a b h
    cases l₂ with
    | nil => cases h
    | cons y rest₂ =>
      rcases List.mem_cons.mp h with heq | h'
      · cases heq
        exact List.mem_cons_self _ _
      · exact List.mem_cons_of_mem _ (ih h')

theorem containsKey_eq_false_iff {l : List (String × ServerState)} {k : String} :
    containsKey l k = false ↔ k ∉ l.map Prod.fst := by
  induction l with
  | nil => simp [containsKey, strMapGet]
  | cons head rest ih =>
    obtain ⟨k', v⟩ := head
    by_cases hk : k' = k
    · subst hk
      simp [containsKey, strMapGet]
    · simp [containsKey, strMapGet, hk, Ne.symm hk] at ih ⊢
      exact ih

theorem strMapSet_strMapSet (l : List (String × ServerState)) (k : String)
    (v w : ServerState) : strMapSet (strMapSet l k v) k w = strMapSet l k w := by
  induction l with
  | nil => simp [strMapSet]
  | cons head rest ih =>
    obtain ⟨k', v'⟩ := head
    by_cases hk : k' = k
    · simp [strMapSet, hk]
    · simp [strMapSet, hk, ih]

theorem strMapGet_strMapSet (l : List (String × ServerState)) (k : String)
    (v : ServerState) : strMapGet (strMapSet l k v) k = some v := by
  induction l with
  | nil => simp [strMapSet, strMapGet]
  | cons head rest ih =>
    obtain ⟨k', v'⟩ := head
    by_cases hk : k' = k
    · simp [strMapSet, hk, strMapGet]
    · simp [strMapSet, hk, strMapGet, ih]

theorem mem_fst_strMapSet (l : List (String × ServerState)) (k : String)
    (v : ServerState) : k ∈ (strMapSet l k v).map Prod.fst := by
  induction l with
  | nil => simp [strMapSet]
  | cons head rest ih =>
    obtain ⟨k', v'⟩ := head
    by_cases hk : k' = k
    · simp [strMapSet, hk]
    · simp only [strMapSet, if_neg hk, List.map_cons]
      exact List.mem_cons_of_mem _ ih

theorem strMapDelete_strMapSet_fresh {l : List (String × ServerState)} {k : String}
    (v : ServerState) (h : k ∉ l.map Prod.fst) :
    strMapDelete (strMapSet l k v) k = l := by
  induction l with
  | nil => simp [strMapSet, strMapDelete]
  | cons head rest ih =>
    obtain ⟨k', v'⟩ := head
    simp only [List.map_cons, List.mem_cons] at h
    push_neg at h
    simp [strMapSet, Ne.symm h.1, strMapDelete, ih h.2]

/- ------------------------------------------------------------------
   Helper lemmas unfolding startServer on each outcome
   ------------------------------------------------------------------ -/

theorem startServer_err_spec (mgr : ManagerState) (command : String) (e : Json)
    (tout : RpcOutcome) (h : containsKey mgr.servers command = false)
    (he : truthy e = true) :
    startServer mgr command (.err e) tout =
      (⟨strMapSet mgr.servers command
          { tools := [], capabilities := [], nextId := 2, pendingRequests := [],
            command := command }⟩,
       .failed (jsGet e "message")) := by
  simp [startServer, h, freshServer, sendRequest, responseFor, handleMessage, hasKey,
    lookupField, msgIdVal, pendingGet, pendingSet, lookupNat, pendingDelete, deleteNat,
    truthyOpt, he, jsGetOpt, strMapSet_strMapSet]

theorem startServer_exit_spec (mgr : ManagerState) (command : String)
    (tout : RpcOutcome) (h : containsKey mgr.servers command = false) :
    startServer mgr command .exitBeforeReply tout =
      (⟨strMapDelete (strMapSet mgr.servers command (freshServer command)) command⟩,
       .hung) := by
  simp [startServer, h, responseFor]

theorem startServer_ok_err_spec (mgr : ManagerState) (command : String) (r e : Json)
    (h : containsKey mgr.servers command = false) :
    startServer mgr command (.ok r) (.err e) =
      (⟨strMapSet mgr.servers command
          { tools := [], capabilities := [], nextId := 3, pendingRequests := [],
            command := command }⟩,
       .success) := by
  by_cases hte : truthy e = true
  · simp [startServer, h, freshServer, sendRequest, responseFor, handleMessage, hasKey,
      lookupField, msgIdVal, pendingGet, pendingSet, lookupNat, pendingDelete, deleteNat,
      truthyOpt, hte, jsGetOpt, listTools, strMapSet_strMapSet]
  · have hte' : truthy e = false := by simpa using hte
    simp [startServer, h, freshServer, sendRequest, responseFor, handleMessage, hasKey,
      lookupField, msgIdVal, pendingGet, pendingSet, lookupNat, pendingDelete, deleteNat,
      truthyOpt, hte', jsGetOpt, listTools, strMapSet_strMapSet]

theorem startServer_ok_ok_reg (mgr : ManagerState) (command : String) (r₁ r₂ : Json)
    (h : containsKey mgr.servers command = false) :
    ∃ sv : ServerState, startServer mgr command (.ok r₁) (.ok r₂) =
      (⟨strMapSet mgr.servers command sv⟩, .success) := by
  refine ⟨ServerState.mk (toolsFrom r₂) [] 3 [] command, ?_⟩
  rcases r₂ with _ | b | n | s | xs | fs <;>
    simp [startServer, h, freshServer, sendRequest, responseFor,
      handleMessage, hasKey, lookupField, msgIdVal, pendingGet, pendingSet, lookupNat,
      pendingDelete, deleteNat, truthyOpt, jsGetOpt, listTools, toolsFrom, jsGet,
      strMapSet_strMapSet]

/- ------------------------------------------------------------------
   Helper lemmas about the tools/call handler and the catalog
   ------------------------------------------------------------------ -/

theorem templateToString_str (n : String) : templateToString (some (Json.str n)) = n := rfl

theorem extractToolResult_content {r : Json} {blocks : List Json}
    (h : jsGet r "content" = some (Json.arr blocks))
    (hnn : ∀ b ∈ blocks, Json.isNull b = false) :
    extractToolResult (some r)
      = .ok (String.intercalate "\n" ((blocks.filter isTextBlock).map textOf)) := by
  rcases r with _ | b | n | s | xs | fs <;> simp [jsGet] at h
  have hany : blocks.any Json.isNull = false := by
    rw [List.any_eq_false]
    intro b hb
    simp [hnn b hb]
  simp [extractToolResult, jsGet, h, hany]

theorem extractToolResult_content_null {r : Json} {blocks : List Json}
    (h : jsGet r "content" = some (Json.arr blocks)) (hn : Json.null ∈ blocks) :
    extractToolResult (some r) = .thrownTypeError := by
  rcases r with _ | b | n | s | xs | fs <;> simp [jsGet] at h
  have hany : blocks.any Json.isNull = true :=
    List.any_eq_true.mpr ⟨Json.null, hn, rfl⟩
  simp [extractToolResult, jsGet, h, hany]

theorem extractToolResult_stringify {r : Json}
    (h : ∀ blocks, jsGet r "content" ≠ some (Json.arr blocks)) (hn : r ≠ Json.null) :
    extractToolResult (some r) = .ok (stringify r) := by
  rcases r with _ | b | n | s | xs | fs
  · exact absurd rfl hn
  · rfl
  · rfl
  · rfl
  · rfl
  · rcases hc : lookupField fs "content" with _ | v
    · simp [extractToolResult, jsGet, hc]
    · rcases v with _ | b | n | s | xs | gs
      · simp [extractToolResult, jsGet, hc]
      · simp [extractToolResult, jsGet, hc]
      · simp [extractToolResult, jsGet, hc]
      · simp [extractToolResult, jsGet, hc]
      · exact absurd (by simpa [jsGet] using hc) (h xs)
      · simp [extractToolResult, jsGet, hc]

theorem invokeTool_ok_result (sv : ServerState) (name : Option Json) (params r : Json) :
    (invokeTool sv name params (.ok r)).2.2 = extractToolResult (some r) := by
  simp [invokeTool, sendRequest, responseFor, handleMessage, hasKey, lookupField,
    msgIdVal, pendingGet, lookupNat_pendingSet, truthyOpt, jsGetOpt]

theorem invokeTool_err_result (sv : ServerState) (name : Option Json) (params e : Json)
    (he : truthy e = true) :
    (invokeTool sv name params (.err e)).2.2 = .thrown (jsGet e "message") := by
  simp [invokeTool, sendRequest, responseFor, handleMessage, hasKey, lookupField,
    msgIdVal, pendingGet, lookupNat_pendingSet, truthyOpt, he, jsGetOpt]

theorem invokeTool_reqs_length (sv : ServerState) (name : Option Json) (params : Json)
    (oc : RpcOutcome) : (invokeTool sv name params oc).2.1.length = 1 := by
  rcases oc with r | e | _
  · simp [invokeTool, sendRequest, responseFor, handleMessage, hasKey, lookupField,
      msgIdVal, pendingGet, lookupNat_pendingSet, truthyOpt, jsGetOpt]
  · by_cases he : truthy e = true
    · simp [invokeTool, sendRequest, responseFor, handleMessage, hasKey, lookupField,
        msgIdVal, pendingGet, lookupNat_pendingSet, truthyOpt, he, jsGetOpt]
    · have he' : truthy e = false := by simpa using he
      simp [invokeTool, sendRequest, responseFor, handleMessage, hasKey, lookupField,
        msgIdVal, pendingGet, lookupNat_pendingSet, truthyOpt, he', jsGetOpt]
  · simp [invokeTool, sendRequest, responseFor]

theorem mem_getAllTools_of_mem {mgr : ManagerState} {c : String} {sv : ServerState}
    {t : Json} (hs : (c, sv) ∈ mgr.servers) (ht : t ∈ sv.tools) :
    mkConvertedTool c t ∈ getAllTools mgr := by
  exact List.mem_flatMap.mpr ⟨(c, sv), hs, List.mem_map_of_mem _ ht⟩

/- ------------------------------------------------------------------
   Claim C3 (schema translator, required list omitted)
   ------------------------------------------------------------------ -/

/-- C3 counterexample: for the object schema declaring property "a" with
no `required` list, the claim says the translated validator rejects any
input object missing a declared property; the code instead marks every
property optional, and the resulting validator accepts the empty
object. -/
theorem required_omitted_accepts_missing_cex :
    zodValidate
      (convertSchemaToZod (some (Json.obj
        [("type", Json.str "object"),
         ("properties", Json.obj [("a", Json.obj [("type", Json.str "string")])])])))
      (Json.obj []) = true := rfl

/-- C3 (amended): for every schema node with type "object", a truthy
properties map and no `required` list, the translator marks every
declared property optional (`schema.required?.includes(key)` is falsy
when `required` is absent), so the resulting validator accepts input
objects in which declared properties are absent — in particular the
empty object. -/
theorem required_omitted_all_optional (s props : Json)
    (hty : jsGet s "type" = some (Json.str "object"))
    (hreq : jsGet s "required" = none)
    (hprops : jsGet s "properties" = some props)
    (htp : truthy props = true) :
    ∃ shape, convertSchemaToZod (some s) = ZodType.objectT shape
      ∧ (∀ e ∈ shape, e.2.2 = true)
      ∧ zodValidate (ZodType.objectT shape) (Json.obj []) = true := by
  have hs : truthy s = true := by
    rcases s with _ | b | n | st | xs | fs <;> simp_all [jsGet, truthy]
  refine ⟨(entriesOf props).map (fun kv =>
      (kv.1, convertPropertyToZodGo (optSize (some s)) kv.2, true)), ?_, ?_, ?_⟩
  · show convertSchemaToZodGo (optSize (some s) + 1) (some s) = _
    simp [convertSchemaToZodGo, truthyOpt, hs, jsGetOpt, hty, hreq, hprops, htp,
      requiredIncludes, show truthy (Json.str "object") = true from rfl]
  · intro e he
    simp only [List.mem_map] at he
    obtain ⟨kv, -, rfl⟩ := he
    rfl
  · simp only [zodValidate, zodValidateGo, lookupField]
    rw [List.all_eq_true]
    intro e he
    simp only [List.mem_map] at he
    obtain ⟨kv, -, rfl⟩ := he
    rfl

theorem required_omitted_all_optional_witness :
    jsGet (Json.obj [("type", Json.str "object"),
        ("properties", Json.obj [("a", Json.obj [("type", Json.str "string")])])])
        "type" = some (Json.str "object")
    ∧ jsGet (Json.obj [("type", Json.str "object"),
        ("properties", Json.obj [("a", Json.obj [("type", Json.str "string")])])])
        "required" = none
    ∧ jsGet (Json.obj [("type", Json.str "object"),
        ("properties", Json.obj [("a", Json.obj [("type", Json.str "string")])])])
        "properties" = some (Json.obj [("a", Json.obj [("type", Json.str "string")])])
    ∧ truthy (Json.obj [("a", Json.obj [("type", Json.str "string")])]) = true
    ∧ ∃ shape,
        convertSchemaToZod (some (Json.obj [("type", Json.str "object"),
          ("properties", Json.obj [("a", Json.obj [("type", Json.str "string")])])]))
          = ZodType.objectT shape
        ∧ (∀ e ∈ shape, e.2.2 = true)
        ∧ zodValidate (ZodType.objectT shape) (Json.obj []) = true :=
  ⟨rfl, rfl, rfl, rfl,
   required_omitted_all_optional _ _ rfl rfl rfl rfl⟩

/- ------------------------------------------------------------------
   Claim C9 (schema translator, missing schema or missing type)
   ------------------------------------------------------------------ -/

/-- C9 counterexample: for a missing schema the claim says the translator
returns an accept-anything validator; the code returns `z.object({})`,
which rejects the non-object input "x". -/
theorem missing_schema_rejects_nonobject_cex :
    convertSchemaToZod none = ZodType.objectT []
    ∧ zodValidate (convertSchemaToZod none) (Json.str "x") = false :=
  ⟨rfl, rfl⟩

/-- C9 (amended): for a missing schema, a falsy schema value, or a schema
whose `type` member is absent or falsy, the translator returns the
empty-object validator `z.object({})`, which accepts every object input
(its unknown keys are stripped) but rejects every non-object input. -/
theorem missing_schema_empty_object_validator :
    (convertSchemaToZod none = ZodType.objectT [])
    ∧ (∀ s : Json, truthyOpt (jsGet s "type") = false →
        convertSchemaToZod (some s) = ZodType.objectT [])
    ∧ (∀ s : Json, truthy s = false → convertSchemaToZod (some s) = ZodType.objectT [])
    ∧ (∀ fields : List (String × Json),
        zodValidate (ZodType.objectT []) (Json.obj fields) = true)
    ∧ (∀ j : Json, (∀ fields, j ≠ Json.obj fields) →
        zodValidate (ZodType.objectT []) j = false) := by
  refine ⟨rfl, ?_, ?_, ?_, ?_⟩
  · intro s hs
    show convertSchemaToZodGo (optSize (some s) + 1) (some s) = _
    simp [convertSchemaToZodGo, jsGetOpt, hs]
  · intro s hs
    show convertSchemaToZodGo (optSize (some s) + 1) (some s) = _
    simp [convertSchemaToZodGo, truthyOpt, hs]
  · intro fields
    rfl
  · intro j hj
    rcases j with _ | b | n | s | xs | fs
    · rfl
    · rfl
    · rfl
    · rfl
    · rfl
    · exact absurd rfl (hj fs)

theorem missing_schema_empty_object_validator_witness :
    truthyOpt (jsGet (Json.obj [("foo", Json.num 1)]) "type") = false
    ∧ convertSchemaToZod (some (Json.obj [("foo", Json.num 1)])) = ZodType.objectT []
    ∧ zodValidate (ZodType.objectT []) (Json.obj [("a", Json.str "b")]) = true
    ∧ zodValidate (ZodType.objectT []) (Json.num 5) = false :=
  ⟨rfl,
   missing_schema_empty_object_validator.2.1 _ rfl,
   missing_schema_empty_object_validator.2.2.2.1 _,
   missing_schema_empty_object_validator.2.2.2.2 _ (fun _ h => nomatch h)⟩

/- ------------------------------------------------------------------
   Claim C5 (tools/call result extraction and error propagation)
   ------------------------------------------------------------------ -/

/-- C5 counterexample: a successful tools/call whose result value is
null carries no content array, so the claim says the handler returns the
raw result JSON-encoded ("null"); instead `result.content` throws a
TypeError, which the catch re-throws, and the invocation fails. -/
theorem null_result_throws_cex :
    (invokeTool (freshServer "c") (some (Json.str "t")) (Json.obj [])
        (.ok Json.null)).2.2 = HandlerResult.thrownTypeError
    ∧ (invokeTool (freshServer "c") (some (Json.str "t")) (Json.obj [])
        (.ok Json.null)).2.2 ≠ HandlerResult.ok (stringify Json.null) :=
  ⟨rfl, fun h => HandlerResult.noConfusion h⟩

/-- C5 (amended): on success, a result carrying a `content` member that
is an array of non-null blocks yields the newline-join of the text of
its "text"-typed blocks, but if the content array holds a null element
the filter callback's `c.type` access throws a TypeError that is
re-thrown; a non-null result without a content array is returned
JSON-encoded (a null or absent result value instead makes
`result.content` itself throw); on RPC failure the rejection is
re-thrown to the caller, and in every case exactly one request is
written — there is no retry. -/
theorem toolCall_result_extraction :
    (∀ (sv : ServerState) (name : Option Json) (params r : Json) (blocks : List Json),
        jsGet r "content" = some (Json.arr blocks) →
        (∀ b ∈ blocks, Json.isNull b = false) →
        (invokeTool sv name params (.ok r)).2.2
          = .ok (String.intercalate "\n" ((blocks.filter isTextBlock).map textOf)))
    ∧ (∀ (sv : ServerState) (name : Option Json) (params r : Json) (blocks : List Json),
        jsGet r "content" = some (Json.arr blocks) →
        Json.null ∈ blocks →
        (invokeTool sv name params (.ok r)).2.2 = .thrownTypeError)
    ∧ (∀ (sv : ServerState) (name : Option Json) (params r : Json),
        (∀ blocks, jsGet r "content" ≠ some (Json.arr blocks)) → r ≠ Json.null →
        (invokeTool sv name params (.ok r)).2.2 = .ok (stringify r))
    ∧ (∀ (sv : ServerState) (name : Option Json) (params e : Json),
        truthy e = true →
        (invokeTool sv name params (.err e)).2.2 = .thrown (jsGet e "message"))
    ∧ (∀ (sv : ServerState) (name : Option Json) (params : Json) (oc : RpcOutcome),
        (invokeTool sv name params oc).2.1.length = 1) := by
  refine ⟨?_, ?_, ?_, ?_, ?_⟩
  · intro sv name params r blocks hc hnn
    rw [invokeTool_ok_result, extractToolResult_content hc hnn]
  · intro sv name params r blocks hc hn
    rw [invokeTool_ok_result, extractToolResult_content_null hc hn]
  · intro sv name params r hc hn
    rw [invokeTool_ok_result, extractToolResult_stringify hc hn]
  · intro sv name params e he
    exact invokeTool_err_result sv name params e he
  · intro sv name params oc
    exact invokeTool_reqs_length sv name params oc

theorem toolCall_result_extraction_witness :
    jsGet (Json.obj [("content", Json.arr
        [Json.obj [("type", Json.str "text"), ("text", Json.str "hi")]])])
        "content" = some (Json.arr
        [Json.obj [("type", Json.str "text"), ("text", Json.str "hi")]])
    ∧ (∀ b ∈ [Json.obj [("type", Json.str "text"), ("text", Json.str "hi")]],
        Json.isNull b = false)
    ∧ (invokeTool (freshServer "c") (some (Json.str "t")) (Json.obj [])
        (.ok (Json.obj [("content", Json.arr
          [Json.obj [("type", Json.str "text"), ("text", Json.str "hi")]])]))).2.2
        = .ok (String.intercalate "\n"
            (([Json.obj [("type", Json.str "text"), ("text", Json.str "hi")]].filter
                isTextBlock).map textOf))
    ∧ Json.null ∈ [Json.null]
    ∧ (invokeTool (freshServer "c") (some (Json.str "t")) (Json.obj [])
        (.ok (Json.obj [("content", Json.arr [Json.null])]))).2.2 = .thrownTypeError
    ∧ (∀ blocks, jsGet (Json.num 7) "content" ≠ some (Json.arr blocks))
    ∧ (invokeTool (freshServer "c") (some (Json.str "t")) (Json.obj [])
        (.ok (Json.num 7))).2.2 = .ok (stringify (Json.num 7))
    ∧ truthy (Json.obj [("message", Json.str "bad")]) = true
    ∧ (invokeTool (freshServer "c") (some (Json.str "t")) (Json.obj [])
        (.err (Json.obj [("message", Json.str "bad")]))).2.2
        = .thrown (jsGet (Json.obj [("message", Json.str "bad")]) "message")
    ∧ (invokeTool (freshServer "c") (some (Json.str "t")) (Json.obj [])
        (.ok (Json.num 7))).2.1.length = 1 :=
  ⟨rfl, by decide,
   toolCall_result_extraction.1 (freshServer "c") (some (Json.str "t")) (Json.obj [])
     (Json.obj [("content", Json.arr
       [Json.obj [("type", Json.str "text"), ("text", Json.str "hi")]])])
     [Json.obj [("type", Json.str "text"), ("text", Json.str "hi")]] rfl (by decide),
   List.mem_cons_self _ _,
   toolCall_result_extraction.2.1 (freshServer "c") (some (Json.str "t")) (Json.obj [])
     (Json.obj [("content", Json.arr [Json.null])]) [Json.null] rfl
     (List.mem_cons_self _ _),
   fun _ h => Option.noConfusion h,
   toolCall_result_extraction.2.2.1 (freshServer "c") (some (Json.str "t")) (Json.obj [])
     (Json.num 7) (fun _ h => Option.noConfusion h) (fun h => Json.noConfusion h),
   rfl,
   toolCall_result_extraction.2.2.2.1 (freshServer "c") (some (Json.str "t"))
     (Json.obj []) (Json.obj [("message", Json.str "bad")]) rfl,
   toolCall_result_extraction.2.2.2.2 (freshServer "c") (some (Json.str "t"))
     (Json.obj []) (.ok (Json.num 7))⟩

/- ------------------------------------------------------------------
   Claim C10 (content array with no text block yields the empty string)
   ------------------------------------------------------------------ -/

/-- C10 counterexample: the content array [null] contains no block of
type "text" (the property access `null.type` cannot yield "text"; it
throws), so the claim says the handler returns the empty string — but
the thrown TypeError is re-thrown and the invocation rejects instead. -/
theorem content_null_block_throws_cex :
    (∀ b ∈ [Json.null], jsGet b "type" ≠ some (Json.str "text"))
    ∧ (invokeTool (freshServer "c") (some (Json.str "t")) (Json.obj [])
        (.ok (Json.obj [("content", Json.arr [Json.null])]))).2.2
      = HandlerResult.thrownTypeError
    ∧ (invokeTool (freshServer "c") (some (Json.str "t")) (Json.obj [])
        (.ok (Json.obj [("content", Json.arr [Json.null])]))).2.2
      ≠ HandlerResult.ok "" :=
  ⟨fun b hb h => by
    rw [List.mem_singleton.mp hb] at h
    exact Option.noConfusion h,
   rfl, fun h => HandlerResult.noConfusion h⟩

/-- C10 (amended): for every successful tools/call whose result has a
content member that is an array of non-null blocks none of which has
type "text" (including the empty array), the handler returns the empty
string rather than the JSON encoding of the raw result; if the array
holds a null block, the filter's `c.type` access throws instead and the
invocation rejects with the re-thrown TypeError. -/
theorem no_text_blocks_empty_string
    (sv : ServerState) (name : Option Json) (params r : Json) (blocks : List Json)
    (hc : jsGet r "content" = some (Json.arr blocks))
    (hnn : ∀ b ∈ blocks, Json.isNull b = false)
    (hb : ∀ b ∈ blocks, isTextBlock b = false) :
    (invokeTool sv name params (.ok r)).2.2 = .ok "" := by
  rw [invokeTool_ok_result, extractToolResult_content hc hnn]
  have hf : blocks.filter isTextBlock = [] :=
    List.filter_eq_nil_iff.mpr (fun b hbm => by simp [hb b hbm])
  rw [hf]
  rfl

theorem no_text_blocks_empty_string_witness :
    jsGet (Json.obj [("content", Json.arr [Json.obj [("type", Json.str "image")]])])
        "content" = some (Json.arr [Json.obj [("type", Json.str "image")]])
    ∧ (∀ b ∈ [Json.obj [("type", Json.str "image")]], Json.isNull b = false)
    ∧ (∀ b ∈ [Json.obj [("type", Json.str "image")]], isTextBlock b = false)
    ∧ (invokeTool (freshServer "c") (some (Json.str "t")) (Json.obj [])
        (.ok (Json.obj [("content",
          Json.arr [Json.obj [("type", Json.str "image")]])]))).2.2 = .ok "" :=
  ⟨rfl, by decide, by decide,
   no_text_blocks_empty_string _ _ _ _ _ rfl (by decide) (by decide)⟩

/- ------------------------------------------------------------------
   Claim C1 (startServer failure and registration)
   ------------------------------------------------------------------ -/

/-- C1 counterexample: when initialize is answered by an error response,
startServer rejects with that error — but the session was inserted into
the registry before the handshake and is not removed on this path, so
the command still appears in getActiveServers, contradicting the claim
that the failed session is never registered. -/
theorem startServer_failed_yet_registered_cex :
    (startServer ⟨[]⟩ "srv" (.err (Json.obj [("message", Json.str "boom")]))
        (.ok (Json.obj []))).2 = .failed (some (Json.str "boom"))
    ∧ getActiveServers (startServer ⟨[]⟩ "srv"
        (.err (Json.obj [("message", Json.str "boom")])) (.ok (Json.obj []))).1
      = ["srv"] :=
  ⟨rfl, rfl⟩

/-- C1 (amended): the session is registered before the handshake. When
initialize is answered by a truthy error, startServer rejects with that
error message but the command remains in getActiveServers; when the
process exits before replying, the exit handler removes the registry
entry, yet the startServer promise never settles, so the call hangs
instead of rejecting. -/
theorem startServer_handshake_failure_behavior
    (mgr : ManagerState) (command : String) (e : Json) (tout : RpcOutcome)
    (h : containsKey mgr.servers command = false) (he : truthy e = true) :
    ((startServer mgr command (.err e) tout).2 = .failed (jsGet e "message")
      ∧ command ∈ getActiveServers (startServer mgr command (.err e) tout).1)
    ∧ ((startServer mgr command .exitBeforeReply tout).2 = .hung
      ∧ command ∉ getActiveServers (startServer mgr command .exitBeforeReply tout).1) := by
  constructor
  · rw [startServer_err_spec mgr command e tout h he]
    exact ⟨rfl, mem_fst_strMapSet _ _ _⟩
  · rw [startServer_exit_spec mgr command tout h]
    refine ⟨rfl, ?_⟩
    show command ∉ (strMapDelete (strMapSet mgr.servers command (freshServer command))
      command).map Prod.fst
    rw [strMapDelete_strMapSet_fresh (freshServer command) (containsKey_eq_false_iff.mp h)]
    exact containsKey_eq_false_iff.mp h

theorem startServer_handshake_failure_behavior_witness :
    containsKey ([] : List (String × ServerState)) "srv" = false
    ∧ truthy (Json.obj [("message", Json.str "boom")]) = true
    ∧ (((startServer ⟨[]⟩ "srv" (.err (Json.obj [("message", Json.str "boom")]))
          (.ok (Json.obj []))).2
        = .failed (jsGet (Json.obj [("message", Json.str "boom")]) "message")
      ∧ "srv" ∈ getActiveServers (startServer ⟨[]⟩ "srv"
          (.err (Json.obj [("message", Json.str "boom")])) (.ok (Json.obj []))).1)
      ∧ ((startServer ⟨[]⟩ "srv" .exitBeforeReply (.ok (Json.obj []))).2 = .hung
      ∧ "srv" ∉ getActiveServers
          (startServer ⟨[]⟩ "srv" .exitBeforeReply (.ok (Json.obj []))).1)) :=
  ⟨rfl, rfl,
   startServer_handshake_failure_behavior ⟨[]⟩ "srv"
     (Json.obj [("message", Json.str "boom")]) (.ok (Json.obj [])) rfl rfl⟩

/- ------------------------------------------------------------------
   Claim C2 (qualified names across sessions)
   ------------------------------------------------------------------ -/

/-- C2 counterexample: two registered sessions each exposing a tool named
"search" produce two catalog entries bound to different sessions but
with the identical qualified name "mcp_search" — a name collision, where
the claim says the namespace prefix disambiguates the two. -/
theorem getAllTools_name_collision_cex :
    ((getAllTools ⟨[("s1", ServerState.mk [Json.obj [("name", Json.str "search")]] [] 3 [] "s1"),
        ("s2", ServerState.mk [Json.obj [("name", Json.str "search")]] [] 3 [] "s2")]⟩).map
        ConvertedTool.name = ["mcp_search", "mcp_search"])
    ∧ ((getAllTools ⟨[("s1", ServerState.mk [Json.obj [("name", Json.str "search")]] [] 3 [] "s1"),
        ("s2", ServerState.mk [Json.obj [("name", Json.str "search")]] [] 3 [] "s2")]⟩).map
        ConvertedTool.handlerServer = ["s1", "s2"]) :=
  ⟨rfl, rfl⟩

/-- C2 (amended): getAllTools produces one entry per session and tool;
entries from different sessions are distinct descriptors (each bound to
its own session), but the qualified name is the fixed prefix "mcp_" plus
the original tool name, so two sessions exposing the same tool name get
identical qualified names — the prefix does not disambiguate across
provider processes. -/
theorem getAllTools_fixed_namespace_no_disambiguation
    (mgr : ManagerState) (c₁ c₂ : String) (sv₁ sv₂ : ServerState) (t₁ t₂ : Json)
    (n : String)
    (h₁ : (c₁, sv₁) ∈ mgr.servers) (h₂ : (c₂, sv₂) ∈ mgr.servers) (hne : c₁ ≠ c₂)
    (ht₁ : t₁ ∈ sv₁.tools) (ht₂ : t₂ ∈ sv₂.tools)
    (hn₁ : jsGet t₁ "name" = some (Json.str n))
    (hn₂ : jsGet t₂ "name" = some (Json.str n)) :
    ∃ e₁ e₂ : ConvertedTool, e₁ ∈ getAllTools mgr ∧ e₂ ∈ getAllTools mgr
      ∧ e₁ ≠ e₂
      ∧ e₁.handlerServer = c₁ ∧ e₂.handlerServer = c₂
      ∧ e₁.name = "mcp_" ++ n ∧ e₂.name = "mcp_" ++ n := by
  refine ⟨mkConvertedTool c₁ t₁, mkConvertedTool c₂ t₂,
    mem_getAllTools_of_mem h₁ ht₁, mem_getAllTools_of_mem h₂ ht₂, ?_, rfl, rfl, ?_, ?_⟩
  · intro he
    exact hne (congrArg ConvertedTool.handlerServer he)
  · show "mcp_" ++ templateToString (jsGet t₁ "name") = "mcp_" ++ n
    rw [hn₁, templateToString_str]
  · show "mcp_" ++ templateToString (jsGet t₂ "name") = "mcp_" ++ n
    rw [hn₂, templateToString_str]

theorem getAllTools_fixed_namespace_no_disambiguation_witness :
    ("s1", ServerState.mk [Json.obj [("name", Json.str "search")]] [] 3 [] "s1")
        ∈ ([("s1", ServerState.mk [Json.obj [("name", Json.str "search")]] [] 3 [] "s1"),
            ("s2", ServerState.mk [Json.obj [("name", Json.str "search")]] [] 3 [] "s2")]
           : List (String × ServerState))
    ∧ ("s1" : String) ≠ "s2"
    ∧ ∃ e₁ e₂ : ConvertedTool,
        e₁ ∈ getAllTools ⟨[("s1", ServerState.mk [Json.obj [("name", Json.str "search")]] [] 3 [] "s1"),
            ("s2", ServerState.mk [Json.obj [("name", Json.str "search")]] [] 3 [] "s2")]⟩
        ∧ e₂ ∈ getAllTools ⟨[("s1", ServerState.mk [Json.obj [("name", Json.str "search")]] [] 3 [] "s1"),
            ("s2", ServerState.mk [Json.obj [("name", Json.str "search")]] [] 3 [] "s2")]⟩
        ∧ e₁ ≠ e₂
        ∧ e₁.handlerServer = "s1" ∧ e₂.handlerServer = "s2"
        ∧ e₁.name = "mcp_" ++ "search" ∧ e₂.name = "mcp_" ++ "search" :=
  ⟨List.mem_cons_self _ _, by decide,
   getAllTools_fixed_namespace_no_disambiguation _ "s1" "s2" _ _
     (Json.obj [("name", Json.str "search")]) (Json.obj [("name", Json.str "search")])
     "search"
     (List.mem_cons_self _ _) (List.mem_cons_of_mem _ (List.mem_cons_self _ _))
     (by decide) (List.mem_cons_self _ _) (List.mem_cons_self _ _) rfl rfl⟩

/- ------------------------------------------------------------------
   Claim C6 (registry idempotence of startServer)
   ------------------------------------------------------------------ -/

/-- C6: starting two distinct commands from an empty manager yields two
independent registry entries in insertion order; starting an already
registered command again returns immediately as already-running, without
spawning, and leaves the registry unchanged with exactly one entry per
command. -/
theorem startServer_registry_idempotence
    (c₁ c₂ : String) (r₁ r₂ r₃ r₄ : Json) (io tout : RpcOutcome) (hne : c₁ ≠ c₂) :
    ∃ sv₁ sv₂ : ServerState,
      startServer ⟨[]⟩ c₁ (.ok r₁) (.ok r₂) = (⟨[(c₁, sv₁)]⟩, .success)
      ∧ startServer ⟨[(c₁, sv₁)]⟩ c₂ (.ok r₃) (.ok r₄)
          = (⟨[(c₁, sv₁), (c₂, sv₂)]⟩, .success)
      ∧ getActiveServers ⟨[(c₁, sv₁), (c₂, sv₂)]⟩ = [c₁, c₂]
      ∧ startServer ⟨[(c₁, sv₁), (c₂, sv₂)]⟩ c₁ io tout
          = (⟨[(c₁, sv₁), (c₂, sv₂)]⟩, .alreadyRunning)
      ∧ startServer ⟨[(c₁, sv₁), (c₂, sv₂)]⟩ c₂ io tout
          = (⟨[(c₁, sv₁), (c₂, sv₂)]⟩, .alreadyRunning) := by
  obtain ⟨sv₁, h₁⟩ := startServer_ok_ok_reg ⟨[]⟩ c₁ r₁ r₂ rfl
  have hck : containsKey ([(c₁, sv₁)] : List (String × ServerState)) c₂ = false := by
    simp [containsKey, strMapGet, hne]
  obtain ⟨sv₂, h₂⟩ := startServer_ok_ok_reg ⟨[(c₁, sv₁)]⟩ c₂ r₃ r₄ hck
  have hset : strMapSet [(c₁, sv₁)] c₂ sv₂ = [(c₁, sv₁), (c₂, sv₂)] := by
    simp [strMapSet, hne]
  refine ⟨sv₁, sv₂, ?_, ?_, rfl, ?_, ?_⟩
  · simpa [strMapSet] using h₁
  · rw [hset] at h₂
    exact h₂
  · simp [startServer, containsKey, strMapGet]
  · simp [startServer, containsKey, strMapGet, hne]

theorem startServer_registry_idempotence_witness :
    ("a" : String) ≠ "b"
    ∧ ∃ sv₁ sv₂ : ServerState,
        startServer ⟨[]⟩ "a" (.ok (Json.obj [])) (.ok (Json.obj []))
          = (⟨[("a", sv₁)]⟩, .success)
        ∧ startServer ⟨[("a", sv₁)]⟩ "b" (.ok (Json.obj [])) (.ok (Json.obj []))
          = (⟨[("a", sv₁), ("b", sv₂)]⟩, .success)
        ∧ getActiveServers ⟨[("a", sv₁), ("b", sv₂)]⟩ = ["a", "b"]
        ∧ startServer ⟨[("a", sv₁), ("b", sv₂)]⟩ "a" (.ok (Json.obj [])) (.ok (Json.obj []))
          = (⟨[("a", sv₁), ("b", sv₂)]⟩, .alreadyRunning)
        ∧ startServer ⟨[("a", sv₁), ("b", sv₂)]⟩ "b" (.ok (Json.obj [])) (.ok (Json.obj []))
          = (⟨[("a", sv₁), ("b", sv₂)]⟩, .alreadyRunning) :=
  ⟨by decide,
   startServer_registry_idempotence "a" "b" (Json.obj []) (Json.obj []) (Json.obj [])
     (Json.obj []) (.ok (Json.obj [])) (.ok (Json.obj [])) (by decide)⟩

/- ------------------------------------------------------------------
   Claim C7 (malformed inbound lines are dropped)
   ------------------------------------------------------------------ -/

/-- C7: an inbound line that is not valid JSON (the parse result `none`)
is logged and dropped: no pending request is settled, the session state
is unchanged, and processing of the following lines is exactly what it
would have been without the malformed line. -/
theorem malformed_line_dropped (sv : ServerState) (rest : List (Option Json)) :
    onLine sv none = (sv, none)
    ∧ processParsedLines sv (none :: rest) = processParsedLines sv rest :=
  ⟨rfl, rfl⟩

/- ------------------------------------------------------------------
   Claim C8 (tools/list failure is non-fatal)
   ------------------------------------------------------------------ -/

/-- C8: when initialize succeeds but tools/list is answered by an error,
listTools catches the rejection, startServer still resolves
successfully, the session stays registered, and its tool list is
empty. -/
theorem toolsList_failure_nonfatal
    (mgr : ManagerState) (command : String) (r e : Json)
    (h : containsKey mgr.servers command = false) :
    (startServer mgr command (.ok r) (.err e)).2 = .success
    ∧ command ∈ getActiveServers (startServer mgr command (.ok r) (.err e)).1
    ∧ ∃ sv : ServerState,
        strMapGet (startServer mgr command (.ok r) (.err e)).1.servers command = some sv
        ∧ sv.tools = [] := by
  rw [startServer_ok_err_spec mgr command r e h]
  exact ⟨rfl, mem_fst_strMapSet _ _ _, ⟨_, strMapGet_strMapSet _ _ _, rfl⟩⟩

theorem toolsList_failure_nonfatal_witness :
    containsKey ([] : List (String × ServerState)) "c" = false
    ∧ ((startServer ⟨[]⟩ "c" (.ok (Json.obj []))
          (.err (Json.obj [("message", Json.str "nope")]))).2 = .success
      ∧ "c" ∈ getActiveServers (startServer ⟨[]⟩ "c" (.ok (Json.obj []))
          (.err (Json.obj [("message", Json.str "nope")]))).1
      ∧ ∃ sv : ServerState,
          strMapGet (startServer ⟨[]⟩ "c" (.ok (Json.obj []))
            (.err (Json.obj [("message", Json.str "nope")]))).1.servers "c" = some sv
          ∧ sv.tools = []) :=
  ⟨rfl,
   toolsList_failure_nonfatal ⟨[]⟩ "c" (Json.obj [])
     (Json.obj [("message", Json.str "nope")]) rfl⟩

/- ------------------------------------------------------------------
   Claim C4 (request/response correlation)
   ------------------------------------------------------------------ -/

/-- C4: for every burst of concurrent sendRequest calls on one fresh
session, each call settles with exactly the inbound response whose id
equals its assigned request id, regardless of the order responses
arrive in: the caller receives that response's result/error settlement
exactly once, and afterwards the pending entry is gone (so a duplicate
response is dropped). A response whose id matches no pending request
leaves the session state unchanged and settles nothing. -/
theorem sendRequest_response_correlation :
    (∀ (cmd : String) (calls : List (Nat × String × Option Json)) (i c : Nat)
        (msgs : List Json) (m : Json),
        (calls.map (fun q => q.1)).Nodup →
        (c, i) ∈ (multiSend (freshServer cmd) calls).2 →
        msgs.countP (matchesId i) = 1 →
        m ∈ msgs → matchesId i m = true →
        ((c, settleOf m) ∈ (processMessages (multiSend (freshServer cmd) calls).1 msgs).2
          ∧ (processMessages (multiSend (freshServer cmd) calls).1 msgs).2.countP
              (fun s => s.1 == c) = 1
          ∧ lookupNat
              (processMessages (multiSend (freshServer cmd) calls).1 msgs).1.pendingRequests
              i = none))
    ∧ (∀ (sv : ServerState) (m : Json),
        (∀ v, msgKey m = some v → pendingGet sv.pendingRequests v = none) →
        handleMessage sv m = (sv, none)) := by
  constructor
  · intro cmd calls i c msgs m hnd hmem hcount hm hmatch
    have h0 : ∀ k ∈ (freshServer cmd).pendingRequests.map Prod.fst,
        k < (freshServer cmd).nextId := by
      simp [freshServer]
    obtain ⟨hp, ha, -⟩ := multiSend_spec calls (freshServer cmd) h0
    have hp' : (multiSend (freshServer cmd) calls).1.pendingRequests
        = (List.range' 1 calls.length).zip (calls.map fun q => q.1) := by
      simpa [freshServer] using hp
    have ha' : (multiSend (freshServer cmd) calls).2
        = (calls.map fun q => q.1).zip (List.range' 1 calls.length) := by
      simpa [freshServer] using ha
    rw [ha'] at hmem
    have hmem' : (i, c) ∈ (multiSend (freshServer cmd) calls).1.pendingRequests := by
      rw [hp']
      exact mem_zip_swap hmem
    have hlen : (List.range' 1 calls.length).length = (calls.map fun q => q.1).length := by
      simp
    have hfst : (((multiSend (freshServer cmd) calls).1.pendingRequests).map Prod.fst).Nodup := by
      rw [hp', List.map_fst_zip _ _ (le_of_eq hlen)]
      exact List.nodup_range' 1 calls.length
    have hsnd : (((multiSend (freshServer cmd) calls).1.pendingRequests).map Prod.snd).Nodup := by
      rw [hp', List.map_snd_zip _ _ (le_of_eq hlen.symm)]
      exact hnd
    exact processMessages_correlation msgs _ i c m hfst hsnd hmem' hcount hm hmatch
  · intro sv m h
    rcases hk : msgKey m with _ | v
    · exact handleMessage_of_msgKey_none hk
    · exact handleMessage_unmatched hk (h v hk)

theorem sendRequest_response_correlation_witness :
    ([((5 : Nat), ("ping" : String), (none : Option Json))].map (fun q => q.1)).Nodup
    ∧ ((5 : Nat), (1 : Nat)) ∈ (multiSend (freshServer "x") [(5, "ping", none)]).2
    ∧ [Json.obj [("jsonrpc", Json.str "2.0"), ("id", Json.num (Int.ofNat 1)),
        ("result", Json.str "ok")]].countP (matchesId 1) = 1
    ∧ Json.obj [("jsonrpc", Json.str "2.0"), ("id", Json.num (Int.ofNat 1)),
        ("result", Json.str "ok")]
      ∈ [Json.obj [("jsonrpc", Json.str "2.0"), ("id", Json.num (Int.ofNat 1)),
        ("result", Json.str "ok")]]
    ∧ matchesId 1 (Json.obj [("jsonrpc", Json.str "2.0"), ("id", Json.num (Int.ofNat 1)),
        ("result", Json.str "ok")]) = true
    ∧ ((5, settleOf (Json.obj [("jsonrpc", Json.str "2.0"), ("id", Json.num (Int.ofNat 1)),
          ("result", Json.str "ok")]))
        ∈ (processMessages (multiSend (freshServer "x") [(5, "ping", none)]).1
            [Json.obj [("jsonrpc", Json.str "2.0"), ("id", Json.num (Int.ofNat 1)),
              ("result", Json.str "ok")]]).2
      ∧ (processMessages (multiSend (freshServer "x") [(5, "ping", none)]).1
            [Json.obj [("jsonrpc", Json.str "2.0"), ("id", Json.num (Int.ofNat 1)),
              ("result", Json.str "ok")]]).2.countP (fun s => s.1 == 5) = 1
      ∧ lookupNat (processMessages (multiSend (freshServer "x") [(5, "ping", none)]).1
            [Json.obj [("jsonrpc", Json.str "2.0"), ("id", Json.num (Int.ofNat 1)),
              ("result", Json.str "ok")]]).1.pendingRequests 1 = none)
    ∧ handleMessage (freshServer "y") (Json.str "junk") = (freshServer "y", none) :=
  ⟨by decide, by decide, rfl, List.mem_cons_self _ _, rfl,
   sendRequest_response_correlation.1 "x" [(5, "ping", none)] 1 5
     [Json.obj [("jsonrpc", Json.str "2.0"), ("id", Json.num (Int.ofNat 1)),
       ("result", Json.str "ok")]]
     (Json.obj [("jsonrpc", Json.str "2.0"), ("id", Json.num (Int.ofNat 1)),
       ("result", Json.str "ok")])
     (by decide) (by decide) rfl (List.mem_cons_self _ _) rfl,
   sendRequest_response_correlation.2 (freshServer "y") (Json.str "junk")
     (fun v h => Option.noConfusion h)⟩

end Mcp
